import Mathlib

/-!
Verification of the yaslapi binding layer (Rust sources src/lib.rs and
src/aux.rs) against its natural-language specification.

The Rust code wraps the YASL C runtime.  The binding's own logic
(validation, interning, marshaling, conversions) is translated directly
from the Rust source.  The C runtime is an external collaborator reached
through FFI calls; each FFI primitive the binding uses (YASL_popbool,
YASL_tablenext, YASL_listget, ...) is modelled here from its documented
interface: the doc comment of the wrapping Rust method in src/lib.rs,
which matches spec section 4.2.  Machine details are modelled as follows:
raw pointers are natural numbers with 0 as the null pointer, f64 values
are carried as their 64-bit IEEE-754 bit pattern, and strings are lists
of characters.
-/

namespace Yaslapi

/-- The `Type` enum of src/lib.rs (renamed `Ty`: `Type` is reserved in Lean):
the twelve YASL stack value tags. -/
inductive Ty where
  | Undefined
  | Float
  | Int
  | Bool
  | Str
  | List
  | Table
  | Fn
  | Closure
  | CFn
  | UserPtr
  | UserData
deriving DecidableEq

/-- A value resident on the YASL VM stack.  Floats carry their IEEE-754 bit
pattern; pointers are naturals (0 = null); a table is its entry sequence in
iteration order; strings are lists of characters. -/
inductive SVal where
  | undefined
  | float (bits : Nat)
  | int (i : Int)
  | bool (b : Bool)
  | str (s : List Char)
  | list (xs : List SVal)
  | table (es : List (SVal × SVal))
  | fn
  | closure
  | cfn
  | userptr (p : Nat)
  | userdata (p : Nat) (tag : Option (List Char))

/-- The tag of a stack value (YASL_peektype's classification). -/
def SVal.ty : SVal → Ty
  | .undefined => .Undefined
  | .float _ => .Float
  | .int _ => .Int
  | .bool _ => .Bool
  | .str _ => .Str
  | .list _ => .List
  | .table _ => .Table
  | .fn => .Fn
  | .closure => .Closure
  | .cfn => .CFn
  | .userptr _ => .UserPtr
  | .userdata _ _ => .UserData

/-- The implicit LIFO value stack of one interpreter instance; head = top. -/
def Stack := List SVal

/-- YASL type-name strings, used by YASL_peektypename; for userdata the
registered tag is returned instead (see `peek_type_name`). -/
def tyName : Ty → List Char
  | .Undefined => "undef".toList
  | .Float => "float".toList
  | .Int => "int".toList
  | .Bool => "bool".toList
  | .Str => "str".toList
  | .List => "list".toList
  | .Table => "table".toList
  | .Fn => "fn".toList
  | .Closure => "closure".toList
  | .CFn => "cfn".toList
  | .UserPtr => "userptr".toList
  | .UserData => "userdata".toList

/-- State::peek_type — YASL_peektype: tag of the top of the stack.  The empty
stack is outside the C API's contract; the model answers `Undefined` there and no
theorem below relies on that choice. -/
def peekType : Stack → Ty
  | [] => Ty.Undefined
  | v :: _ => v.ty

/-- State::pop — YASL_pop: removes the top of the stack. -/
def pop : Stack → Stack
  | [] => []
  | _ :: r => r

/-- State::clone_top — YASL_duptop: duplicate the top item and push it. -/
def clone_top : Stack → Stack
  | [] => []
  | v :: r => v :: v :: r

/-- The `len` operator's value on a YASL object (length of a string, list or
table). -/
def lenVal : SVal → Int
  | .str s => s.length
  | .list xs => xs.length
  | .table es => es.length
  | _ => 0

/-- State::len — YASL_len: pops the top, evaluates `len` on it, pushes the
result. -/
def len : Stack → Stack
  | [] => []
  | v :: r => SVal.int (lenVal v) :: r

/-- State::pop_bool — YASL_popbool: the bool on top, else false; always
removes the top. -/
def pop_bool : Stack → Bool × Stack
  | SVal.bool b :: r => (b, r)
  | s => (false, pop s)

/-- State::pop_int — YASL_popint: the int on top, else 0; always removes the
top. -/
def pop_int : Stack → Int × Stack
  | SVal.int i :: r => (i, r)
  | s => (0, pop s)

/-- State::pop_float — YASL_popfloat: the float on top, else 0.0 (bit
pattern 0); always removes the top. -/
def pop_float : Stack → Nat × Stack
  | SVal.float bits :: r => (bits, r)
  | s => (0, pop s)

/-- State::pop_str — YASL_popcstr: the string on top, else `none`; always
removes the top. -/
def pop_str : Stack → Option (List Char) × Stack
  | SVal.str cs :: r => (some cs, r)
  | s => (none, pop s)

/-- State::pop_userdata (src/lib.rs): if the top is a userdata, pop it and
wrap its data pointer with NonNull::new (null becomes `none`); otherwise pop
the top anyway and return `none`. -/
def pop_userdata : Stack → Option Nat × Stack
  | SVal.userdata p _ :: r => (if p = 0 then none else some p, r)
  | s => (none, pop s)

/-- State::pop_userptr (src/lib.rs): if the top is a userptr, pop it and wrap
it with NonNull::new; otherwise pop the top anyway and return `none`. -/
def pop_userptr : Stack → Option Nat × Stack
  | SVal.userptr p :: r => (if p = 0 then none else some p, r)
  | s => (none, pop s)

/-- State::push_undef — YASL_pushundef. -/
def push_undef (s : Stack) : Stack :=
  SVal.undefined :: s

/-- State::peek_type_name — YASL_peektypename: the type name of the top; for
a userdata value the registered tag. -/
def peek_type_name : Stack → Option (List Char)
  | [] => none
  | SVal.userdata _ tag :: _ => tag
  | v :: _ => some (tyName v.ty)

/-- The `StateSuccess` enum of src/lib.rs. -/
inductive StateSuccess where
  | Generic
  | ModuleSuccess
deriving DecidableEq

/-- The `StateError` enum of src/lib.rs. -/
inductive StateError where
  | Generic
  | InitError
  | SyntaxError
  | TypeError
  | DivideByZeroError
  | ValueError
  | TooManyVarError
  | PlatformNotSupp
  | AssertError
  | StackOverflowError
deriving DecidableEq

/-- IEEE-754 binary64: is this bit pattern a NaN (exponent all ones and
nonzero mantissa)? -/
def f64IsNaN (b : Nat) : Bool :=
  decide ((b >>> 52) % 2048 = 2047) && decide (b % (2 ^ 52) ≠ 0)

/-- IEEE-754 binary64: is this bit pattern positive or negative zero? -/
def f64IsZero (b : Nat) : Bool :=
  decide (b = 0) || decide (b = 2 ^ 63)

/-- IEEE-754 equality of two doubles in terms of their bit patterns (the
semantics of Rust's `==` on f64): any NaN compares unequal to everything,
+0.0 and -0.0 compare equal, and otherwise distinct bit patterns are
distinct values. -/
def f64eq (a b : Nat) : Bool :=
  if f64IsNaN a || f64IsNaN b then false
  else if f64IsZero a && f64IsZero b then true
  else decide (a = b)

/-- HashableF64's derived PartialEq (src/aux.rs): delegates to f64 `==`. -/
def hashableF64Eq (a b : Nat) : Bool :=
  f64eq a b

/-- HashableF64's Hash impl (src/aux.rs): hashes `self.0.to_bits()`, i.e. the
IEEE-754 bit pattern; modelled as the data fed to the hasher. -/
def hashableF64Hash (bits : Nat) : Nat :=
  bits

/-- The `HashableObject` enum of src/aux.rs: YASL objects usable as table
keys.  The Float payload is a HashableF64, carried as its bit pattern. -/
inductive HashableObject where
  | bool (b : Bool)
  | int (i : Int)
  | float (bits : Nat)
  | str (s : List Char)
  | userptr (p : Option Nat)
  | undefined
deriving DecidableEq

/-- The `Object` enum of src/aux.rs: host-owned YASL values.  The table
payload is the entry list of the host HashMap (order irrelevant in Rust,
kept as a list here with `insertEntry` as the HashMap insert). -/
inductive Object where
  | bool (b : Bool)
  | int (i : Int)
  | float (bits : Nat)
  | str (s : List Char)
  | list (xs : List Object)
  | table (es : List (HashableObject × Object))
  | userdata (data : Option Nat) (tag : Option (List Char))
  | userptr (p : Option Nat)
  | undefined

/-- impl From(&Object) for Type (src/aux.rs): the tag of a host object. -/
def Object.ty : Object → Ty
  | .bool _ => .Bool
  | .int _ => .Int
  | .float _ => .Float
  | .str _ => .Str
  | .list _ => .List
  | .table _ => .Table
  | .userdata _ _ => .UserData
  | .userptr _ => .UserPtr
  | .undefined => .Undefined

/-- impl TryFrom(Object) for HashableObject (src/aux.rs): Ok for the six
hashable variants, otherwise Err carrying the object's Type. -/
def toHashable : Object → Except Ty HashableObject
  | .bool b => .ok (.bool b)
  | .int i => .ok (.int i)
  | .float bits => .ok (.float bits)
  | .str s => .ok (.str s)
  | .userptr p => .ok (.userptr p)
  | .undefined => .ok .undefined
  | v => .error v.ty

/-- impl From(HashableObject) for Object (src/aux.rs). -/
def ofHashable : HashableObject → Object
  | .bool b => .bool b
  | .int i => .int i
  | .float bits => .float bits
  | .str s => .str s
  | .userptr p => .userptr p
  | .undefined => .undefined

/-- Rust's derived PartialEq on HashableObject: structural equality, except
Float payloads compare with f64 `==`. -/
def hkeyEq : HashableObject → HashableObject → Bool
  | .bool a, .bool b => a = b
  | .int a, .int b => a = b
  | .float a, .float b => f64eq a b
  | .str a, .str b => a = b
  | .userptr a, .userptr b => a = b
  | .undefined, .undefined => true
  | _, _ => false

/-- HashMap::insert of the host table, modelled on the entry list: replaces
the entry whose key compares `==` to `k`, else appends.  (HashMap bucket
resolution uses `==` among equal-hash keys; linear search with `==` agrees
with it for every key satisfying the Eq/Hash contract.) -/
def insertEntry (k : HashableObject) (v : Object) :
    List (HashableObject × Object) → List (HashableObject × Object)
  | [] => [(k, v)]
  | (k₀, v₀) :: rest =>
      if hkeyEq k₀ k then (k, v) :: rest else (k₀, v₀) :: insertEntry k v rest

/-- Key comparison used by the modelled table iterator to locate the cursor
among the table's keys.  Real YASL table keys are always hashable scalars;
a composite cursor never compares equal to any key. -/
def keyEq : SVal → SVal → Bool
  | .undefined, .undefined => true
  | .bool a, .bool b => a = b
  | .int a, .int b => a = b
  | .float a, .float b => a = b
  | .str a, .str b => a = b
  | .userptr a, .userptr b => a = b
  | _, _ => false

/-- The entry following the cursor key in the table's iteration order;
`none` when the cursor is the last key or does not occur. -/
def findAfter : List (SVal × SVal) → SVal → Option (SVal × SVal)
  | [], _ => none
  | (k, _) :: rest, cursor =>
      if keyEq k cursor then rest.head? else findAfter rest cursor

/-- The next entry the iterator yields for a cursor: an `undefined` cursor
requests the first entry (spec section 4.2), any other cursor its
successor. -/
def nextEntry (es : List (SVal × SVal)) : SVal → Option (SVal × SVal)
  | .undefined => es.head?
  | cursor => findAfter es cursor

/-- State::table_next — YASL_tablenext, from its doc comment in src/lib.rs:
the top of the stack should be the previous index, below it the table; the
index is popped, and if more entries remain the next index and then its
value are pushed (value ending on top) and `true` is returned.  When the
item below the popped index is not a table the protocol is violated; the
model then reports end-of-iteration (the index is still popped). -/
def table_next : Stack → Bool × Stack
  | cursor :: SVal.table es :: rest =>
      match nextEntry es cursor with
      | some (k, v) => (true, v :: k :: SVal.table es :: rest)
      | none => (false, SVal.table es :: rest)
  | _ :: rest => (false, rest)
  | [] => (false, [])

/-- State::list_get — YASL_listget, from its doc comment in src/lib.rs:
indexes the list on top of the stack (negative indices count from the end)
and pushes the element; `TypeError` if the top is not a list, `ValueError`
when the index is out of range (stack unchanged on failure). -/
def list_get (n : Int) (s : Stack) : Except StateError Unit × Stack :=
  match s with
  | SVal.list xs :: _ =>
      let i := if n < 0 then n + xs.length else n
      if i < 0 then (.error .ValueError, s)
      else
        match xs[i.toNat]? with
        | some v => (.ok (), v :: s)
        | none => (.error .ValueError, s)
  | _ => (.error .TypeError, s)

/-- How a call to the marshaler can fail: a propagated StateError, a Rust
panic (the `expect` on a non-hashable table key in pop_object), or fuel
exhaustion of the model's step bound. -/
inductive MErr where
  | state (e : StateError)
  | defect
  | fuel
deriving DecidableEq

/-- The pending-work descriptor of the marshaler: a top-level pop_object
call, the `for` loop of its List arm (index `i` of `n`), or the `while
table_next` loop of its Table arm. -/
inductive MCall where
  | top (expected : Option Ty) (s : Stack)
  | inList (i : Nat) (n : Nat) (s : Stack) (acc : List Object)
  | inTable (s : Stack) (acc : List (HashableObject × Object))

/-- The stack a marshaler work item operates on. -/
def MCall.stack : MCall → Stack
  | .top _ s => s
  | .inList _ _ s _ => s
  | .inTable s _ => s

/-- Does the expected-type check of pop_object fail?  Mirrors
`if stack_type != object_type { return Err(StateError::TypeError) }`. -/
def tyMismatch : Option Ty → Ty → Bool
  | some t, k => if k = t then false else true
  | none, _ => false

/-- State::pop_object (src/aux.rs), as a fuel-indexed evaluator.  Each work
item is one step of the Rust control flow, translated branch by branch:

* `.top`: check the expected type against `peek_type` before any stack
  operation; then dispatch on the stack tag.  Scalars pop directly; `Str`
  uses `pop_str().unwrap_or_default()`; `List` clones the top, computes the
  length with `len`/`pop_int` and enters the indexed loop; `Table` pushes
  `undefined` as iteration cursor and enters the iterator loop; `UserData`
  captures `peek_type_name` then `pop_userdata`; the wildcard arm (Undefined,
  Fn, Closure, CFn) pops the value and yields `Object.undefined` (the Rust code
  prints an "Unhandled type" warning for the non-Undefined ones).
* `.inList`: `for i in 0..n { self.list_get(i)?;
  list.push(self.pop_object(None)?); }` then `Ok(Object::List(list))`.
* `.inTable`: `while self.table_next() { let k = pop_object(None)?
  .try_into().expect(..); let v = pop_object(None)?; table.insert(k, v); }`
  then `Ok(Object::Table(table))` — note the first pop (the top of the
  stack) is bound to `k` and the second to `v`.

Errors propagate with the stack in its state at the failure point.  Fuel
decreases on every step so the evaluator is structurally recursive; `fuel`
exhaustion is a distinguished error no theorem identifies with program
behaviour. -/
def marshal : Nat → MCall → Except MErr Object × Stack
  | 0, c => (.error .fuel, c.stack)
  | fuel + 1, .top expected s =>
      if tyMismatch expected (peekType s) then (.error (.state .TypeError), s)
      else
        match peekType s with
        | Ty.Bool => ((pop_bool s).1 |> Object.bool |> Except.ok, (pop_bool s).2)
        | Ty.Int => ((pop_int s).1 |> Object.int |> Except.ok, (pop_int s).2)
        | Ty.Float => ((pop_float s).1 |> Object.float |> Except.ok, (pop_float s).2)
        | Ty.Str => ((pop_str s).1.getD [] |> Object.str |> Except.ok, (pop_str s).2)
        | Ty.List =>
            let s₂ := len (clone_top s)
            marshal fuel (.inList 0 (pop_int s₂).1.toNat (pop_int s₂).2 [])
        | Ty.Table => marshal fuel (.inTable (push_undef s) [])
        | Ty.UserData =>
            ((Object.userdata (pop_userdata s).1 (peek_type_name s) |> Except.ok),
              (pop_userdata s).2)
        | Ty.UserPtr => ((pop_userptr s).1 |> Object.userptr |> Except.ok, (pop_userptr s).2)
        | _ => (.ok .undefined, pop s)
  | fuel + 1, .inList i n s acc =>
      if i < n then
        match list_get (Int.ofNat i) s with
        | (.error e, s₁) => (.error (.state e), s₁)
        | (.ok _, s₁) =>
            match marshal fuel (.top none s₁) with
            | (.error e, s₂) => (.error e, s₂)
            | (.ok v, s₂) => marshal fuel (.inList (i + 1) n s₂ (acc ++ [v]))
      else (.ok (.list acc), s)
  | fuel + 1, .inTable s acc =>
      match table_next s with
      | (false, s₁) => (.ok (.table acc), s₁)
      | (true, s₁) =>
          match marshal fuel (.top none s₁) with
          | (.error e, s₂) => (.error e, s₂)
          | (.ok kObj, s₂) =>
              match toHashable kObj with
              | .error _ => (.error .defect, s₂)
              | .ok k =>
                  match marshal fuel (.top none s₂) with
                  | (.error e, s₃) => (.error e, s₃)
                  | (.ok v, s₃) => marshal fuel (.inTable s₃ (insertEntry k v acc))

/-- State::pop_object with the model's fuel bound. -/
def pop_object (fuel : Nat) (expected : Option Ty) (s : Stack) :
    Except MErr Object × Stack :=
  marshal fuel (.top expected s)

/-- A character matched by the class `[A-z_$]` of IDENTIFIER_REGEX
(src/lib.rs): note `A-z` is the code-point range 0x41 to 0x7A, which also
contains `[`, `\`, `]`, `^`, `_` and the backtick, and `_` is inside that
range. -/
def identStartChar (c : Char) : Bool :=
  (decide ('A' ≤ c) && decide (c ≤ 'z')) || decide (c = '$')

/-- A character matched by the class `[A-z0-9_$]` of IDENTIFIER_REGEX. -/
def identContChar (c : Char) : Bool :=
  identStartChar c || (decide ('0' ≤ c) && decide (c ≤ '9'))

/-- Does the pattern `[A-z_$][A-z0-9_$]*` match starting at the head of
`l`?  Since the starred class may match the empty string, some prefix of
`l` matches exactly when the head exists and is in the start class. -/
def identMatchHere : List Char → Bool
  | [] => false
  | c :: _ => identStartChar c

/-- is_valid_identifier (src/lib.rs): `IDENTIFIER_REGEX.is_match(name)`.
Rust's Regex::is_match is an unanchored search: it is true exactly when the
pattern matches starting at some position of the string. -/
def is_valid_identifier (name : List Char) : Bool :=
  name.tails.any identMatchHere

/-- Modelled from the spec: the runtime's identifier grammar — an ASCII
letter, underscore or `$`, followed by ASCII alphanumerics, underscores or
`$`, matching the whole string (spec section 4.4). -/
def specIdentStart (c : Char) : Bool :=
  (decide ('A' ≤ c) && decide (c ≤ 'Z')) || (decide ('a' ≤ c) && decide (c ≤ 'z'))
    || decide (c = '_') || decide (c = '$')

/-- Modelled from the spec: continuation characters of the identifier
grammar. -/
def specIdentCont (c : Char) : Bool :=
  specIdentStart c || (decide ('0' ≤ c) && decide (c ≤ '9'))

/-- Modelled from the spec: whether the whole string is a well-formed
identifier of the runtime's grammar. -/
def specIdentifier : List Char → Bool
  | [] => false
  | c :: rest => specIdentStart c && rest.all specIdentCont

/-- Does the string contain a NUL character?  `CString::new` fails exactly
on such strings. -/
def hasNul (name : List Char) : Bool :=
  name.any fun c => decide (c = Char.ofNat 0)

/-- The process-wide LIFETIME_CSTRINGS pool (src/lib.rs): owned identifier
strings with the stable heap address of each owned C-string buffer, plus a
fresh-address source modelling the allocator.  Rust's HashSet is modelled
as the entry list; moving a CString into the set does not move its heap
buffer, so the address recorded at insertion stays valid. -/
structure Pool where
  entries : List (List Char × Nat)
  nextAddr : Nat

/-- Lookup of an interned identifier's buffer address. -/
def lookupName : List (List Char × Nat) → List Char → Option Nat
  | [], _ => none
  | (k, a) :: rest, name => if k = name then some a else lookupName rest name

/-- `LIFETIME_CSTRINGS.lock().unwrap().get(&var_name)` of the model. -/
def Pool.find (p : Pool) (name : List Char) : Option Nat :=
  lookupName p.entries name

/-- The failure modes of the global-declaration functions: the
InvalidIdentifier error value, or the panic of `CString::new(name).unwrap()`
on an interior NUL (declare_global only). -/
inductive InternError where
  | invalidIdentifier
  | nulAbort
deriving DecidableEq

/-- State::declare_global (src/lib.rs): validate the name with
is_valid_identifier, build the C-string (`unwrap` panics on NUL), reuse the
already-interned buffer's pointer if the text is present, otherwise hand
the runtime the new buffer's pointer and insert it into the pool.  The
returned Nat is the pointer passed to YASL_declglobal. -/
def declare_global (name : List Char) (p : Pool) : Except InternError (Nat × Pool) :=
  if is_valid_identifier name then
    if hasNul name then .error .nulAbort
    else
      match p.find name with
      | some a => .ok (a, p)
      | none => .ok (p.nextAddr, ⟨(name, p.nextAddr) :: p.entries, p.nextAddr + 1⟩)
  else .error .invalidIdentifier

/-- State::init_global_slice (src/aux.rs): same validation and interning as
declare_global, but `CString::new(name).map_err(|_| InvalidIdentifier)?`
turns an interior NUL into the InvalidIdentifier error, and the pointer is
handed to YASLX_initglobal. -/
def init_global_slice (name : List Char) (p : Pool) : Except InternError (Nat × Pool) :=
  if is_valid_identifier name then
    if hasNul name then .error .invalidIdentifier
    else
      match p.find name with
      | some a => .ok (a, p)
      | none => .ok (p.nextAddr, ⟨(name, p.nextAddr) :: p.entries, p.nextAddr + 1⟩)
  else .error .invalidIdentifier

/-- One interning call against the shared pool: `true` selects
declare_global, `false` selects init_global_slice. -/
def internCall (useDecl : Bool) (name : List Char) (p : Pool) :
    Except InternError (Nat × Pool) :=
  if useDecl then declare_global name p else init_global_slice name p

/-- An arbitrary interleaving of declare_global / init_global_slice calls
(from any States — the pool is process-wide), threading the shared pool; a
failed call leaves the pool untouched (both functions return before
mutating it). -/
def runCalls : List (Bool × List Char) → Pool → Pool
  | [], p => p
  | (b, name) :: rest, p =>
      match internCall b name p with
      | .ok (_, p₁) => runCalls rest p₁
      | .error _ => runCalls rest p

/-- NonNull::new: `none` exactly on the null pointer. -/
def nonNullNew (ptr : Nat) : Option Nat :=
  if ptr = 0 then none else some ptr

/-- The State struct of src/lib.rs: the raw interpreter handle (an address;
0 is the null pointer, which the NonNull field type promises never to
hold). -/
structure State where
  state : Nat

/-- State::from_path (src/lib.rs): `NonNull::new(ptr).map(|state| Self {
state })` — `alloc` is the pointer YASL_newstate returned (the runtime may
return null, e.g. when the file cannot be read). -/
def from_path (alloc : Nat) : Option State :=
  (nonNullNew alloc).map fun p => State.mk p

/-- State::from_source (src/lib.rs): `NonNull::new_unchecked(...)` — the
pointer YASL_newstate_bb returned is wrapped without any null check. -/
def from_source (alloc : Nat) : State :=
  State.mk alloc

/-- impl From(StateSuccess) for i32: the discriminants assigned in
src/lib.rs from the runtime's YASL_Error enum (YASL_SUCCESS = 0,
YASL_MODULE_SUCCESS = 1). -/
def StateSuccess.toInt : StateSuccess → Int
  | .Generic => 0
  | .ModuleSuccess => 1

/-- impl From(StateError) for i32: the discriminants assigned in src/lib.rs
from the runtime's YASL_Error enum (YASL_ERROR = 2 through
YASL_STACK_OVERFLOW_ERROR = 11). -/
def StateError.toInt : StateError → Int
  | .Generic => 2
  | .InitError => 3
  | .SyntaxError => 4
  | .TypeError => 5
  | .DivideByZeroError => 6
  | .ValueError => 7
  | .TooManyVarError => 8
  | .PlatformNotSupp => 9
  | .AssertError => 10
  | .StackOverflowError => 11

/-- num's derived FromPrimitive for StateSuccess: match the exact
discriminant. -/
def StateSuccess.fromInt (c : Int) : Option StateSuccess :=
  if c = 0 then some .Generic
  else if c = 1 then some .ModuleSuccess
  else none

/-- num's derived FromPrimitive for StateError: match the exact
discriminant. -/
def StateError.fromInt (c : Int) : Option StateError :=
  if c = 2 then some .Generic
  else if c = 3 then some .InitError
  else if c = 4 then some .SyntaxError
  else if c = 5 then some .TypeError
  else if c = 6 then some .DivideByZeroError
  else if c = 7 then some .ValueError
  else if c = 8 then some .TooManyVarError
  else if c = 9 then some .PlatformNotSupp
  else if c = 10 then some .AssertError
  else if c = 11 then some .StackOverflowError
  else none

/-- state_result (src/lib.rs): decode the status as a success first, then as
an error; an unknown code panics (modelled as `none`). -/
def state_result (c : Int) : Option (Except StateError StateSuccess) :=
  match StateSuccess.fromInt c with
  | some s => some (.ok s)
  | none =>
      match StateError.fromInt c with
      | some e => some (.error e)
      | none => none

/-- The integer a decoded result converts back to, via the From impls for
i32. -/
def resultCode : Except StateError StateSuccess → Int
  | .ok s => s.toInt
  | .error e => e.toInt

/-! ## Theorems -/

/-- C1: evaluating State::pop_object at the claim's inputs.  The list half
behaves as claimed: a stack whose top is the list `[1, 2, 3]` materializes
to `Object::List([Int 1, Int 2, Int 3])` in order.  The table half does
not: for the table `{"a": 1}` the first pop of each iteration — the value,
which table_next leaves on top — is bound to the key variable `k` and the
popped key to `v`, so the result is `Object::Table{Int 1 ↦ Str "a"}`
instead of the claimed `{Str "a" ↦ Int 1}`. -/
theorem claim1_materialize_eval :
    pop_object 10 none [SVal.table [(SVal.str "a".toList, SVal.int 1)]]
        = (.ok (Object.table [(HashableObject.int 1, Object.str "a".toList)]), [])
      ∧ pop_object 10 none [SVal.list [SVal.int 1, SVal.int 2, SVal.int 3]]
        = (.ok (Object.list [Object.int 1, Object.int 2, Object.int 3]),
            [SVal.list [SVal.int 1, SVal.int 2, SVal.int 3]]) :=
  ⟨rfl, rfl⟩

/-- C2: evaluating the identifier validation at inputs the claim says are
rejected.  The regex `[A-z_$][A-z0-9_$]*` is searched unanchored by
`is_match`, so `"1a"` and `"a b"` are accepted (a substring matches), and
the class `A-z` contains `[`, so `"["` is accepted as well; the spec's
anchored grammar rejects all three.  Both declare_global and
init_global_slice therefore declare these globals instead of returning
`Err(InvalidIdentifier)`. -/
theorem claim2_identifier_eval :
    declare_global "1a".toList ⟨[], 0⟩ = .ok (0, ⟨[("1a".toList, 0)], 1⟩)
      ∧ init_global_slice "1a".toList ⟨[], 0⟩ = .ok (0, ⟨[("1a".toList, 0)], 1⟩)
      ∧ specIdentifier "1a".toList = false
      ∧ declare_global "a b".toList ⟨[], 0⟩ = .ok (0, ⟨[("a b".toList, 0)], 1⟩)
      ∧ specIdentifier "a b".toList = false
      ∧ declare_global "[".toList ⟨[], 0⟩ = .ok (0, ⟨[("[".toList, 0)], 1⟩)
      ∧ specIdentifier "[".toList = false
      ∧ declare_global "".toList ⟨[], 0⟩ = .error .invalidIdentifier :=
  ⟨rfl, rfl, rfl, rfl, rfl, rfl, rfl, rfl⟩

/-- C4: evaluating HashableF64's equality and hash at the claim's inputs.
The derived PartialEq compares the wrapped f64 numerically, so equality is
not reflexive at NaN (bit pattern 0x7FF8000000000000), while +0.0 and -0.0
compare equal yet hash differently because Hash feeds `to_bits` to the
hasher — both halves of the Eq/Hash contract the claim states are
violated. -/
theorem claim4_hashablef64_eval :
    hashableF64Eq 0x7FF8000000000000 0x7FF8000000000000 = false
      ∧ hashableF64Eq 0 0x8000000000000000 = true
      ∧ hashableF64Hash 0 ≠ hashableF64Hash 0x8000000000000000 := by
  refine ⟨by decide, by decide, by decide⟩

/-- C5 counterexample: State::from_source wraps the pointer returned by the
runtime with NonNull::new_unchecked, performing no null check, so when the
runtime's allocation returns null it constructs a State whose raw handle is
the null pointer — the claim's "fails explicitly" is false for
from_source. -/
theorem claim5_counterexample : (from_source 0).state = 0 :=
  rfl

/-- C5 amended: from_path indeed never yields a null handle — it returns
None exactly when the runtime's allocation is null — but from_source wraps
whatever pointer the runtime returns, null included. -/
theorem claim5_amended :
    (∀ alloc h, from_path alloc = some h → h.state ≠ 0)
      ∧ from_path 0 = none
      ∧ ∀ alloc, (from_source alloc).state = alloc := by
  refine ⟨?_, rfl, fun _ => rfl⟩
  intro alloc h hfp
  by_cases h0 : alloc = 0
  · subst h0; simp [from_path, nonNullNew] at hfp
  · simp [from_path, nonNullNew, h0] at hfp
    subst hfp
    simpa using h0

/-- C5 witness: the amended theorem applied at the non-null allocation 7. -/
theorem claim5_witness : (State.mk 7).state ≠ 0 :=
  claim5_amended.1 7 (State.mk 7) rfl

/-- C8: every typed pop removes exactly the top of the stack regardless of
the top's type, and on a type mismatch returns the defined zero value
(false, 0, 0.0 — bit pattern 0 — or None) instead of an error. -/
theorem claim8_typed_pops (v : SVal) (rest : List SVal) :
    (pop_bool (v :: rest)).2 = rest
      ∧ (v.ty ≠ Ty.Bool → (pop_bool (v :: rest)).1 = false)
      ∧ (pop_int (v :: rest)).2 = rest
      ∧ (v.ty ≠ Ty.Int → (pop_int (v :: rest)).1 = 0)
      ∧ (pop_float (v :: rest)).2 = rest
      ∧ (v.ty ≠ Ty.Float → (pop_float (v :: rest)).1 = 0)
      ∧ (pop_str (v :: rest)).2 = rest
      ∧ (v.ty ≠ Ty.Str → (pop_str (v :: rest)).1 = none)
      ∧ (pop_userdata (v :: rest)).2 = rest
      ∧ (v.ty ≠ Ty.UserData → (pop_userdata (v :: rest)).1 = none)
      ∧ (pop_userptr (v :: rest)).2 = rest
      ∧ (v.ty ≠ Ty.UserPtr → (pop_userptr (v :: rest)).1 = none) := by
  cases v <;>
    simp [pop_bool, pop_int, pop_float, pop_str, pop_userdata, pop_userptr, pop, SVal.ty]

/-- C8 witness: the theorem applied with an integer on top: pop_bool still
removes it and returns the zero value false. -/
theorem claim8_witness :
    (pop_bool [SVal.int 3]).2 = [] ∧ (pop_bool [SVal.int 3]).1 = false :=
  ⟨(claim8_typed_pops (SVal.int 3) []).1,
    (claim8_typed_pops (SVal.int 3) []).2.1 (by decide)⟩

/-- Decoding a success code recovers the code (num's FromPrimitive matches
the exact discriminant). -/
theorem fromInt_toInt_success (c : Int) (s : StateSuccess)
    (h : StateSuccess.fromInt c = some s) : StateSuccess.toInt s = c := by
  simp only [StateSuccess.fromInt] at h
  split_ifs at h with h0 h1
  all_goals injection h with h2
  all_goals subst h2
  all_goals simp only [StateSuccess.toInt]
  all_goals omega

/-- Decoding an error code recovers the code. -/
theorem fromInt_toInt_error (c : Int) (e : StateError)
    (h : StateError.fromInt c = some e) : StateError.toInt e = c := by
  simp only [StateError.fromInt] at h
  split_ifs at h with g0 g1 g2 g3 g4 g5 g6 g7 g8 g9
  all_goals injection h with h2
  all_goals subst h2
  all_goals simp only [StateError.toInt]
  all_goals omega

/-- C9: state_result maps each of the two success codes to Ok of the
variant carrying that code and each of the ten error codes to Err of the
variant carrying that code, and every decoded result converts back to the
exact input code — the conversion is faithful and injective (no two codes
collapse to one variant). -/
theorem claim9_state_result :
    (∀ s, state_result s.toInt = some (.ok s))
      ∧ (∀ e, state_result e.toInt = some (.error e))
      ∧ ∀ c r, state_result c = some r → resultCode r = c := by
  refine ⟨fun s => by cases s <;> rfl, fun e => by cases e <;> rfl, ?_⟩
  intro c r h
  unfold state_result at h
  rcases hs : StateSuccess.fromInt c with _ | s
  · rw [hs] at h
    rcases he : StateError.fromInt c with _ | e
    · rw [he] at h; cases h
    · rw [he] at h
      cases h
      simpa [resultCode] using fromInt_toInt_error c e he
  · rw [hs] at h
    cases h
    simpa [resultCode] using fromInt_toInt_success c s hs

/-- C9 witness: the round-trip conjunct applied at code 0. -/
theorem claim9_witness :
    resultCode (Except.ok StateSuccess.Generic) = 0
      ∧ state_result 0 = some (Except.ok StateSuccess.Generic) :=
  ⟨claim9_state_result.2.2 0 (Except.ok StateSuccess.Generic) rfl, rfl⟩

/-- The Object variants convertible to table keys: the claim's Bool, Int,
Float, Str, UserPtr and Undefined. -/
def hashableKind : Object → Bool
  | .bool _ | .int _ | .float _ | .str _ | .userptr _ | .undefined => true
  | _ => false

/-- C10: TryFrom(Object) for HashableObject succeeds exactly on the six
hashable variants, fails with the object's Type on List, Table and
UserData, and the From / TryFrom pair round-trips every HashableObject. -/
theorem claim10_hashable_roundtrip :
    (∀ h₀ : HashableObject, toHashable (ofHashable h₀) = .ok h₀)
      ∧ (∀ v : Object, hashableKind v = true → (toHashable v).isOk = true)
      ∧ ∀ v : Object, hashableKind v = false → toHashable v = .error (Object.ty v) := by
  refine ⟨fun h₀ => by cases h₀ <;> rfl, fun v hv => ?_, fun v hv => ?_⟩
  · cases v <;> first | rfl | simp [hashableKind] at hv
  · cases v <;> first | rfl | simp [hashableKind] at hv

/-- C10 witness: the round trip at Int 3 and the failure at an empty
list. -/
theorem claim10_witness :
    toHashable (ofHashable (HashableObject.int 3)) = .ok (HashableObject.int 3)
      ∧ toHashable (Object.list []) = .error Ty.List :=
  ⟨claim10_hashable_roundtrip.1 (HashableObject.int 3),
    claim10_hashable_roundtrip.2.2 (Object.list []) rfl⟩

/-- A successful interning call implies the name passed validation and the
resulting pool maps the name to the returned pointer. -/
theorem internCall_ok (b : Bool) (name : List Char) (p : Pool) (a : Nat) (q : Pool)
    (h : internCall b name p = .ok (a, q)) :
    is_valid_identifier name = true ∧ hasNul name = false ∧ q.find name = some a := by
  cases b <;>
    · simp only [internCall, if_true, if_false, Bool.false_eq_true] at h
      first
        | unfold init_global_slice at h
        | unfold declare_global at h
      by_cases hv : is_valid_identifier name = true
      · rw [if_pos hv] at h
        by_cases hn : hasNul name = true
        · rw [if_pos hn] at h; cases h
        · rw [if_neg hn] at h
          refine ⟨hv, by simpa using hn, ?_⟩
          rcases hf : p.find name with _ | a₀ <;> rw [hf] at h <;> injection h with h1
          · injection h1 with ha hq
            subst ha; subst hq
            simp [Pool.find, lookupName]
          · injection h1 with ha hq
            subst ha; subst hq
            exact hf
      · rw [if_neg hv] at h; cases h

/-- Interning never removes or rebinds an existing pool entry: any name
already mapped keeps its address across a successful call (a fresh entry is
only inserted for a name not yet present). -/
theorem internCall_preserve (b : Bool) (name : List Char) (p : Pool) (a : Nat) (q : Pool)
    (h : internCall b name p = .ok (a, q)) (m : List Char) (x : Nat)
    (hm : p.find m = some x) : q.find m = some x := by
  cases b <;>
    · simp only [internCall, if_true, if_false, Bool.false_eq_true] at h
      first
        | unfold init_global_slice at h
        | unfold declare_global at h
      by_cases hv : is_valid_identifier name = true
      · rw [if_pos hv] at h
        by_cases hn : hasNul name = true
        · rw [if_pos hn] at h; cases h
        · rw [if_neg hn] at h
          rcases hf : p.find name with _ | a₀ <;> rw [hf] at h <;> injection h with h1
          · injection h1 with ha hq
            subst hq
            by_cases hnm : name = m
            · subst hnm; rw [hm] at hf; cases hf
            · simpa [Pool.find, lookupName, hnm] using hm
          · injection h1 with ha hq
            subst hq
            exact hm
      · rw [if_neg hv] at h; cases h

/-- Pool entries survive any interleaving of interning calls. -/
theorem runCalls_preserve (cs : List (Bool × List Char)) (p : Pool) (m : List Char)
    (x : Nat) (hm : p.find m = some x) : (runCalls cs p).find m = some x := by
  induction cs generalizing p with
  | nil => simpa [runCalls] using hm
  | cons c rest ih =>
      obtain ⟨b, name⟩ := c
      simp only [runCalls]
      rcases hcall : internCall b name p with e | r
      · simpa [hcall] using ih p hm
      · obtain ⟨a, p₁⟩ := r
        simpa [hcall] using ih p₁ (internCall_preserve b name p a p₁ hcall m x hm)

/-- C6: interning is pointer-stable.  If one call (through declare_global
or init_global_slice, selected by the Bool) interns `name` and hands the
runtime the address `a`, then after any further interleaving of interning
calls against the shared process-wide pool, a later call with the same text
hands the runtime the same address `a` again and leaves the pool
unchanged. -/
theorem claim6_intern_stable (b₁ b₂ : Bool) (name : List Char) (p : Pool) (a : Nat)
    (p₁ : Pool) (cs : List (Bool × List Char))
    (h : internCall b₁ name p = .ok (a, p₁)) :
    internCall b₂ name (runCalls cs p₁) = .ok (a, runCalls cs p₁) := by
  obtain ⟨hv, hn, hfind⟩ := internCall_ok b₁ name p a p₁ h
  have hfind₂ : (runCalls cs p₁).find name = some a :=
    runCalls_preserve cs p₁ name a hfind
  cases b₂ <;>
    simp [internCall, declare_global, init_global_slice, hv, hn, hfind₂]

/-- C6 witness: interning "x" into the empty pool yields address 0; after an
unrelated call interning "y", interning "x" again (through the other entry
point) yields address 0. -/
theorem claim6_witness :
    internCall false "x".toList (runCalls [(false, "y".toList)] ⟨[("x".toList, 0)], 1⟩)
      = .ok (0, runCalls [(false, "y".toList)] ⟨[("x".toList, 0)], 1⟩) :=
  claim6_intern_stable true false "x".toList ⟨[], 0⟩ 0 ⟨[("x".toList, 0)], 1⟩
    [(false, "y".toList)] rfl

/-- The tag of the Object that pop_object's dispatch produces for a given
stack tag: preserved for the eight materializable kinds, `Undefined` for the
wildcard arm (Undefined, Fn, Closure, CFn). -/
def tagTarget : Ty → Ty
  | .Bool => .Bool
  | .Int => .Int
  | .Float => .Float
  | .Str => .Str
  | .List => .List
  | .Table => .Table
  | .UserData => .UserData
  | .UserPtr => .UserPtr
  | _ => .Undefined

/-- The tag any successful result of a marshaler work item carries. -/
def MCall.target : MCall → Ty
  | .top _ s => tagTarget (peekType s)
  | .inList _ _ _ _ => Ty.List
  | .inTable _ _ => Ty.Table

/-- Whenever the marshaler returns Ok, the returned object's tag is the one
determined by the work item: the (possibly redirected) stack tag for a
top-level call, List for the list loop, Table for the table loop. -/
theorem marshal_ok_ty (fuel : Nat) :
    ∀ c v s₁, marshal fuel c = (.ok v, s₁) → Object.ty v = c.target := by
  induction fuel with
  | zero =>
      intro c v s₁ h
      simp [marshal] at h
  | succ fuel ih =>
      intro c v s₁ h
      cases c with
      | top expected s =>
          rcases hm : tyMismatch expected (peekType s)
          · simp only [marshal, hm, Bool.false_eq_true, if_false] at h
            cases hpt : peekType s <;> rw [hpt] at h
            case Undefined | Fn | Closure | CFn =>
              injection h with h1 h2
              injection h1 with h1
              subst h1
              simp [MCall.target, tagTarget, hpt, Object.ty]
            case Bool | Int | Float | Str | UserPtr | UserData =>
              injection h with h1 h2
              injection h1 with h1
              subst h1
              simp [MCall.target, tagTarget, hpt, Object.ty]
            case List =>
              have := ih _ v s₁ h
              simpa [MCall.target, tagTarget, hpt] using this
            case Table =>
              have := ih _ v s₁ h
              simpa [MCall.target, tagTarget, hpt] using this
          · simp [marshal, hm] at h
      | inList i n s acc =>
          by_cases hin : i < n
          · simp only [marshal, hin, if_true] at h
            split at h
            · cases h
            · split at h
              · cases h
              · have := ih _ v s₁ h
                simpa [MCall.target] using this
          · simp only [marshal, hin, if_false] at h
            injection h with h1 h2
            injection h1 with h1
            subst h1
            simp [MCall.target, Object.ty]
      | inTable s acc =>
          simp only [marshal] at h
          split at h
          · injection h with h1 h2
            injection h1 with h1
            subst h1
            simp [MCall.target, Object.ty]
          · split at h
            · cases h
            · split at h
              · cases h
              · split at h
                · cases h
                · have := ih _ v s₁ h
                  simpa [MCall.target] using this

/-- C3 counterexample: a function on top of the stack is a recognized kind
by the claim, yet pop_object consumes it and returns Object::Undefined, whose
tag is Undefined, not Fn — the claimed tag preservation fails for the
function, closure and foreign-function kinds. -/
theorem claim3_counterexample :
    pop_object 2 none [SVal.fn] = (.ok Object.undefined, [])
      ∧ Object.ty Object.undefined = Ty.Undefined
      ∧ Ty.Undefined ≠ Ty.Fn :=
  ⟨rfl, rfl, by decide⟩

/-- C3 amended: whenever pop_object returns Ok, the returned variant's tag
equals the stack-top tag for the eight materializable kinds (boolean,
integer, float, string, list, table, foreign-data, foreign-pointer), while
the function, closure and foreign-function tags are treated like the
undefined/unrecognized case and map to Object::Undefined. -/
theorem claim3_tag_amended (fuel : Nat) (expected : Option Ty) (s : Stack)
    (v : Object) (s₁ : Stack) (h : pop_object fuel expected s = (.ok v, s₁)) :
    Object.ty v = tagTarget (peekType s) :=
  marshal_ok_ty fuel (.top expected s) v s₁ h

/-- C3 witness: the amended theorem applied to a stack holding the integer
5. -/
theorem claim3_witness :
    Object.ty (Object.int 5) = tagTarget (peekType [SVal.int 5]) :=
  claim3_tag_amended 3 none [SVal.int 5] (Object.int 5) [] rfl

/-- C7 counterexample: with a (matching) expected type List and an empty
list on top, pop_object succeeds but the stack after the call is identical
to the stack before it — the list is not consumed, refuting the claim's
"if the tag matches, it consumes the value". -/
theorem claim7_counterexample :
    (pop_object 5 (some Ty.List) [SVal.list []]).1 = .ok (Object.list [])
      ∧ (pop_object 5 (some Ty.List) [SVal.list []]).2 = [SVal.list []] :=
  ⟨rfl, rfl⟩

/-- The stack-top kinds whose pop_object arm consumes exactly the top value
(single pop): every kind except List and Table. -/
def scalarConsume : Ty → Bool
  | .List => false
  | .Table => false
  | _ => true

/-- C7 amended: if the expected type differs from the stack-top tag,
pop_object returns Err(StateError::TypeError) before performing any stack
operation, leaving the stack exactly as it was; when the tag matches, the
non-composite arms consume exactly the top value, but a matching list is
left on the stack after materialization (the List arm never pops the
original list; see the counterexample). -/
theorem claim7_mismatch_amended :
    (∀ fuel t s, 0 < fuel → peekType s ≠ t →
        pop_object fuel (some t) s = (.error (.state .TypeError), s))
      ∧ ∀ fuel v rest, scalarConsume (SVal.ty v) = true →
          ∃ w, pop_object (fuel + 1) (some (SVal.ty v)) (v :: rest) = (.ok w, rest) := by
  constructor
  · intro fuel t s hf hne
    cases fuel with
    | zero => omega
    | succ fuel =>
        have hmm : tyMismatch (some t) (peekType s) = true := by
          simp [tyMismatch, hne]
        simp [pop_object, marshal, hmm]
  · intro fuel v rest hsc
    cases v <;> first | exact ⟨_, rfl⟩ | simp [scalarConsume, SVal.ty] at hsc

/-- C7 witness: a mismatching expectation (Int over a bool) fails with a
TypeError and an untouched stack; a matching scalar expectation consumes
exactly the top. -/
theorem claim7_witness :
    pop_object 1 (some Ty.Int) [SVal.bool true]
        = (.error (.state .TypeError), [SVal.bool true])
      ∧ ∃ w, pop_object 3 (some (SVal.ty (SVal.int 7))) [SVal.int 7] = (.ok w, []) :=
  ⟨claim7_mismatch_amended.1 1 Ty.Int [SVal.bool true] (by decide) (by decide),
    claim7_mismatch_amended.2 2 (SVal.int 7) [] (by decide)⟩

end Yaslapi
